import Mathlib

/-!
# Movie-seat booking server: a shallow embedding of `src/server.js`

The server keeps two pieces of durable state, a movie catalog
(`movies.json`) and a booking ledger (`bookings.json`).  Each HTTP
handler reads the state, acts, writes it back and returns a response;
executed serially this is a function `State → Response × State`, which
is what we embed.  JavaScript in-place mutation of the objects found by
`Array.prototype.find` is modelled by functional update of the first
matching element of the corresponding list.
-/

namespace MovieSeat

/-- Seat status: the server only ever stores the strings `"available"`
and `"booked"` in a seat's `status` field. -/
inductive SeatStatus where
  | available
  | booked
deriving DecidableEq, Repr

/-- A seat object `{id, status}` (see the seeding code and the seat
updates in `server.js`). -/
structure Seat where
  id : String
  status : SeatStatus
deriving DecidableEq, Repr

/-- A showtime object `{id, time, seats}`. -/
structure Showtime where
  id : String
  time : String
  seats : List Seat
deriving DecidableEq, Repr

/-- A movie object `{id, title, duration, showtimes}`. -/
structure Movie where
  id : String
  title : String
  duration : Nat
  showtimes : List Showtime
deriving DecidableEq, Repr

/-- A booking object `{id, customerName, movieId, showtimeId, seats}`
as built at `server.js:114-120`. -/
structure Booking where
  id : String
  customerName : String
  movieId : String
  showtimeId : String
  seats : List String
deriving DecidableEq, Repr

/-- The whole mutable state of the server: the contents of
`movies.json` and `bookings.json`. -/
structure ServerState where
  movies : List Movie
  bookings : List Booking
deriving DecidableEq, Repr

/-- Responses of `POST /api/bookings` (`server.js:79-127`):
HTTP 400 `invalid_request`, 404 `showtime_not_found`,
409 `seats_unavailable` (with the offending seat ids), and
201 `booked` (with the created booking). -/
inductive CreateResult where
  | invalidRequest
  | showtimeNotFound
  | seatsUnavailable (seats : List String)
  | created (booking : Booking)
deriving DecidableEq, Repr

/-- Responses of `DELETE /api/bookings/:id` (`server.js:142-166`):
HTTP 404 `booking_not_found` and 200 `canceled` (with the id). -/
inductive CancelResult where
  | bookingNotFound
  | canceled (id : String)
deriving DecidableEq, Repr

/-- `showtime.seats.find(x => x.id === seatId)` followed by reading
`.status`: the status of the first seat with the given id, if any. -/
def statusOf (seats : List Seat) (seatId : String) : Option SeatStatus :=
  (seats.find? (fun x => decide (x.id = seatId))).map Seat.status

/-- `const seat = seats.find(x => x.id === seatId); if (seat) seat.status = st`:
set the status of the first seat with the given id (no effect when the
id is absent).  Used at `server.js:108-111` and `server.js:156-159`. -/
def setSeat (seats : List Seat) (seatId : String) (st : SeatStatus) : List Seat :=
  match seats with
  | [] => []
  | seat :: rest =>
    if seat.id = seatId then { seat with status := st } :: rest
    else seat :: setSeat rest seatId st

/-- `for (const seatId of seatIds) { ... }`: apply `setSeat` for each
requested seat id in order. -/
def setSeats (seats : List Seat) (seatIds : List String) (st : SeatStatus) : List Seat :=
  match seatIds with
  | [] => seats
  | seatId :: rest => setSeats (setSeat seats seatId st) rest st

/-- Update (in the first showtime whose id matches, if any — this is
`showtimes.find(x => x.id === sid)` plus mutation of the found object)
the statuses of the given seats. -/
def setInShowtimes (sts : List Showtime) (sid : String) (seatIds : List String)
    (st : SeatStatus) : List Showtime :=
  match sts with
  | [] => []
  | s :: rest =>
    if s.id = sid then { s with seats := setSeats s.seats seatIds st } :: rest
    else s :: setInShowtimes rest sid seatIds st

/-- The booking path's seat mutation (`server.js:107-111`): the showtime
object mutated is the one found by the movie loop at `server.js:89-96`,
i.e. the first matching showtime of the first movie that has one. -/
def setInMovies (movies : List Movie) (sid : String) (seatIds : List String)
    (st : SeatStatus) : List Movie :=
  match movies with
  | [] => []
  | m :: rest =>
    match m.showtimes.find? (fun x => decide (x.id = sid)) with
    | some _ => { m with showtimes := setInShowtimes m.showtimes sid seatIds st } :: rest
    | none => m :: setInMovies rest sid seatIds st

/-- The cancellation path's seat restoration (`server.js:151-162`): the
movie is found by id (`movies.find(mm => mm.id === booking.movieId)`),
then its first showtime with the booking's showtime id, then each seat.
When no movie or no showtime matches nothing changes. -/
def freeInMovies (movies : List Movie) (movieId sid : String)
    (seatIds : List String) : List Movie :=
  match movies with
  | [] => []
  | m :: rest =>
    if m.id = movieId then
      { m with showtimes := setInShowtimes m.showtimes sid seatIds SeatStatus.available } :: rest
    else m :: freeInMovies rest movieId sid seatIds

/-- The showtime-resolution loop of `POST /api/bookings`
(`server.js:88-96`): scan movies in order, return the first movie
together with its first showtime whose id matches. -/
def findShowtime (movies : List Movie) (sid : String) : Option (Movie × Showtime) :=
  match movies with
  | [] => none
  | m :: rest =>
    match m.showtimes.find? (fun x => decide (x.id = sid)) with
    | some s => some (m, s)
    | none => findShowtime rest sid

/-- `bookings.findIndex(b => b.id === id)` followed by
`bookings.splice(idx, 1)` (`server.js:145-148`): remove the first
booking with the given id, returning it and the remaining ledger. -/
def removeFirst (bookings : List Booking) (bid : String) :
    Option (Booking × List Booking) :=
  match bookings with
  | [] => none
  | b :: rest =>
    if b.id = bid then some (b, rest)
    else
      match removeFirst rest bid with
      | none => none
      | some (b', rest') => some (b', b :: rest')

/-- The booking id minted at `server.js:115`: `'b' + Date.now()`.  The
current time in milliseconds is an input `now` of the model. -/
def mkBookingId (now : Nat) : String := "b" ++ Nat.repr now

/-- `POST /api/bookings` (`server.js:79-127`).  Inputs are the three
request-body fields (`seats? = none` models a body whose `seats` is not
an array, so that `!Array.isArray(seats)` holds) and the value of
`Date.now()`.  Returns the HTTP response and the state as left on disk. -/
def createBooking (customerName showtimeId : String) (seats? : Option (List String))
    (now : Nat) (st : ServerState) : CreateResult × ServerState :=
  match seats? with
  | none => (CreateResult.invalidRequest, st)
  | some seats =>
    if customerName = "" then (CreateResult.invalidRequest, st)
    else if showtimeId = "" then (CreateResult.invalidRequest, st)
    else
      match findShowtime st.movies showtimeId with
      | none => (CreateResult.showtimeNotFound, st)
      | some (movie, showtime) =>
        let unavailable := seats.filter (fun seatId =>
          match showtime.seats.find? (fun x => decide (x.id = seatId)) with
          | none => true
          | some seat => decide (seat.status ≠ SeatStatus.available))
        if unavailable = [] then
          let booking : Booking :=
            { id := mkBookingId now, customerName := customerName,
              movieId := movie.id, showtimeId := showtimeId, seats := seats }
          (CreateResult.created booking,
            { movies := setInMovies st.movies showtimeId seats SeatStatus.booked,
              bookings := st.bookings ++ [booking] })
        else (CreateResult.seatsUnavailable unavailable, st)

/-- `DELETE /api/bookings/:id` (`server.js:142-166`). -/
def cancelBooking (bid : String) (st : ServerState) : CancelResult × ServerState :=
  match removeFirst st.bookings bid with
  | none => (CancelResult.bookingNotFound, st)
  | some (booking, bookings') =>
    (CancelResult.canceled booking.id,
      { movies := freeInMovies st.movies booking.movieId booking.showtimeId booking.seats,
        bookings := bookings' })

/-- `String.prototype.toLowerCase`, modelled characterwise. -/
def lowerStr (s : String) : String := String.mk (s.data.map Char.toLower)

/-- `hay.includes(needle)` on JavaScript strings: `needle` occurs
contiguously inside `hay` (the empty needle always occurs). -/
def strIncludes (hay needle : List Char) : Bool :=
  needle.isPrefixOf hay ||
    match hay with
    | [] => false
    | _ :: t => strIncludes t needle

/-- `GET /api/bookings?customer=NAME` (`server.js:132-137`).
`customer? = none` models an absent query parameter (so `'' || ...`
yields the empty string). -/
def listBookings (customer? : Option String) (st : ServerState) :
    List Booking × ServerState :=
  let q := lowerStr (customer?.getD "")
  if q = "" then (st.bookings, st)
  else (st.bookings.filter
    (fun b => strIncludes (lowerStr b.customerName).data q.data), st)

/-- The seat layout seeded by `ensureFiles` (`server.js:32-35`):
`A1 .. A36`, all available. -/
def seedSeats : List Seat :=
  (List.range 36).map (fun i => { id := "A" ++ Nat.repr (i + 1), status := SeatStatus.available })

/-- The time string the seed writes (`new Date().toISOString()`); its
value never influences any handler, so it is fixed here. -/
def seedTime : String := "2025-01-01T00:00:00.000Z"

/-- The state created by `ensureFiles` on first startup
(`server.js:20-45`): one movie, one showtime, 36 available seats, empty
ledger. -/
def seedState : ServerState :=
  { movies := [{ id := "m1", title := "Avengers: Endgame", duration := 180,
                 showtimes := [{ id := "s1", time := seedTime, seats := seedSeats }] }],
    bookings := [] }

/-- A serial request against the two mutating endpoints. -/
inductive Op where
  | create (customerName showtimeId : String) (seats : Option (List String)) (now : Nat)
  | cancel (bid : String)
deriving DecidableEq, Repr

/-- The state transition of one serially executed request. -/
def applyOp (st : ServerState) : Op → ServerState
  | Op.create n sid seats now => (createBooking n sid seats now st).2
  | Op.cancel bid => (cancelBooking bid st).2

/-- Serial execution of a sequence of requests. -/
def execOps (st : ServerState) (ops : List Op) : ServerState :=
  ops.foldl applyOp st

/-- The `Date.now()` values of the `create` requests of a sequence, in
order. -/
def createTimes (ops : List Op) : List Nat :=
  ops.filterMap (fun op =>
    match op with
    | Op.create _ _ _ now => some now
    | Op.cancel _ => none)

/-- Resolve a showtime the way `POST /api/bookings` does and look a seat
up in it: the seat's status as a booking request would observe it. -/
def seatStatus (st : ServerState) (sid seatId : String) : Option SeatStatus :=
  match findShowtime st.movies sid with
  | none => none
  | some (_, s) => statusOf s.seats seatId

/-! ## Seat lookup and update lemmas -/

theorem statusOf_nil (x : String) : statusOf [] x = none := rfl

theorem statusOf_cons_pos (a : Seat) (l : List Seat) (x : String) (h : a.id = x) :
    statusOf (a :: l) x = some a.status := by
  simp [statusOf, List.find?_cons_of_pos, h]

theorem statusOf_cons_neg (a : Seat) (l : List Seat) (x : String) (h : a.id ≠ x) :
    statusOf (a :: l) x = statusOf l x := by
  simp [statusOf, List.find?_cons_of_neg, h]

theorem statusOf_setSeat_ne (y : String) (stt : SeatStatus) (x : String) (hxy : x ≠ y) :
    ∀ seats : List Seat, statusOf (setSeat seats y stt) x = statusOf seats x := by
  intro seats
  induction seats with
  | nil => rfl
  | cons a rest ih =>
    by_cases ha : a.id = y
    · have hax : ({ a with status := stt } : Seat).id ≠ x := by
        simp only []
        intro h; exact hxy (h ▸ ha ▸ rfl)
      have hax' : a.id ≠ x := fun h => hxy ((h.symm.trans ha))
      simp only [setSeat, if_pos ha]
      rw [statusOf_cons_neg _ _ _ hax, statusOf_cons_neg _ _ _ hax']
    · simp only [setSeat, if_neg ha]
      by_cases hax : a.id = x
      · rw [statusOf_cons_pos _ _ _ hax, statusOf_cons_pos _ _ _ hax]
      · rw [statusOf_cons_neg _ _ _ hax, statusOf_cons_neg _ _ _ hax]
        exact ih

theorem statusOf_setSeat_isSome (y : String) (stt : SeatStatus) (x : String) :
    ∀ seats : List Seat,
      (statusOf (setSeat seats y stt) x).isSome = (statusOf seats x).isSome := by
  intro seats
  induction seats with
  | nil => rfl
  | cons a rest ih =>
    by_cases ha : a.id = y
    · simp only [setSeat, if_pos ha]
      by_cases hax : a.id = x
      · rw [statusOf_cons_pos { a with status := stt } rest x hax,
          statusOf_cons_pos a rest x hax]
        rfl
      · rw [statusOf_cons_neg { a with status := stt } rest x hax,
          statusOf_cons_neg a rest x hax]
    · simp only [setSeat, if_neg ha]
      by_cases hax : a.id = x
      · rw [statusOf_cons_pos _ _ _ hax, statusOf_cons_pos _ _ _ hax]
      · rw [statusOf_cons_neg _ _ _ hax, statusOf_cons_neg _ _ _ hax]
        exact ih

theorem statusOf_setSeat_self (y : String) (stt : SeatStatus) :
    ∀ seats : List Seat, (statusOf seats y).isSome →
      statusOf (setSeat seats y stt) y = some stt := by
  intro seats
  induction seats with
  | nil => intro h; simp [statusOf] at h
  | cons a rest ih =>
    intro h
    by_cases ha : a.id = y
    · simp only [setSeat, if_pos ha]
      exact statusOf_cons_pos _ _ _ ha
    · simp only [setSeat, if_neg ha]
      rw [statusOf_cons_neg _ _ _ ha] at h
      rw [statusOf_cons_neg _ _ _ ha]
      exact ih h

theorem statusOf_setSeats_not_mem (stt : SeatStatus) (x : String) :
    ∀ (sids : List String) (seats : List Seat), x ∉ sids →
      statusOf (setSeats seats sids stt) x = statusOf seats x := by
  intro sids
  induction sids with
  | nil => intro seats _; rfl
  | cons y ys ih =>
    intro seats hx
    have hxy : x ≠ y := fun h => hx (h ▸ List.mem_cons_self y ys)
    have hys : x ∉ ys := fun h => hx (List.mem_cons_of_mem y h)
    simp only [setSeats]
    rw [ih _ hys, statusOf_setSeat_ne _ _ _ hxy]

theorem statusOf_setSeats_isSome (stt : SeatStatus) (x : String) :
    ∀ (sids : List String) (seats : List Seat),
      (statusOf (setSeats seats sids stt) x).isSome = (statusOf seats x).isSome := by
  intro sids
  induction sids with
  | nil => intro seats; rfl
  | cons y ys ih =>
    intro seats
    simp only [setSeats]
    rw [ih, statusOf_setSeat_isSome]

theorem statusOf_setSeats_mem (stt : SeatStatus) (x : String) :
    ∀ (sids : List String) (seats : List Seat), x ∈ sids →
      (statusOf seats x).isSome →
      statusOf (setSeats seats sids stt) x = some stt := by
  intro sids
  induction sids with
  | nil => intro seats hx; exact absurd hx (List.not_mem_nil x)
  | cons y ys ih =>
    intro seats hx hsome
    simp only [setSeats]
    by_cases hys : x ∈ ys
    · exact ih _ hys (by rw [statusOf_setSeat_isSome]; exact hsome)
    · have hxy : x = y := by
        rcases List.mem_cons.mp hx with h | h
        · exact h
        · exact absurd h hys
      subst hxy
      rw [statusOf_setSeats_not_mem _ _ _ _ hys, statusOf_setSeat_self _ _ _ hsome]

/-! ## The availability filter of `POST /api/bookings` -/

/-- The subset of a request's seat ids that are not currently
`available` in a showtime, seat ids absent from the seat map counted as
unavailable — the set §4.4 step 3 of the spec says `SeatsUnavailable`
must carry. -/
def specUnavail (s : Showtime) (S : List String) : List String :=
  S.filter (fun x => decide (statusOf s.seats x ≠ some SeatStatus.available))

theorem unavail_pred_eq (seats : List Seat) (x : String) :
    (match seats.find? (fun s => decide (s.id = x)) with
     | none => true
     | some seat => decide (seat.status ≠ SeatStatus.available)) =
    decide (statusOf seats x ≠ some SeatStatus.available) := by
  cases h : seats.find? (fun s => decide (s.id = x)) with
  | none => simp [statusOf, h]
  | some seat => simp [statusOf, h]

theorem filter_unavail_eq (s : Showtime) (S : List String) :
    (S.filter (fun seatId =>
      match s.seats.find? (fun x => decide (x.id = seatId)) with
      | none => true
      | some seat => decide (seat.status ≠ SeatStatus.available))) = specUnavail s S := by
  unfold specUnavail
  exact List.filter_congr (fun x _ => unavail_pred_eq s.seats x)

theorem specUnavail_eq_nil_iff (s : Showtime) (S : List String) :
    specUnavail s S = [] ↔ ∀ x ∈ S, statusOf s.seats x = some SeatStatus.available := by
  unfold specUnavail
  rw [List.filter_eq_nil_iff]
  constructor
  · intro h x hx
    have := h x hx
    simpa using this
  · intro h x hx
    simpa using h x hx

/-! ## Characterizations of the two mutating handlers -/

theorem createBooking_eq (n sid : String) (S : List String) (now : Nat) (st : ServerState)
    (m : Movie) (s : Showtime) (hn : n ≠ "") (hsid : sid ≠ "")
    (hres : findShowtime st.movies sid = some (m, s)) :
    createBooking n sid (some S) now st =
      if specUnavail s S = [] then
        (CreateResult.created
          { id := mkBookingId now, customerName := n, movieId := m.id,
            showtimeId := sid, seats := S },
         { movies := setInMovies st.movies sid S SeatStatus.booked,
           bookings := st.bookings ++
             [{ id := mkBookingId now, customerName := n, movieId := m.id,
                showtimeId := sid, seats := S }] })
      else (CreateResult.seatsUnavailable (specUnavail s S), st) := by
  simp only [createBooking, if_neg hn, if_neg hsid, hres]
  rw [filter_unavail_eq]

theorem create_master (n sid : String) (seats? : Option (List String)) (now : Nat)
    (st : ServerState) :
    ((createBooking n sid seats? now st).2 = st ∧
      ∀ bk, (createBooking n sid seats? now st).1 ≠ CreateResult.created bk) ∨
    (∃ S m s bk, seats? = some S ∧ n ≠ "" ∧ sid ≠ "" ∧
      findShowtime st.movies sid = some (m, s) ∧
      (∀ x ∈ S, statusOf s.seats x = some SeatStatus.available) ∧
      bk = { id := mkBookingId now, customerName := n, movieId := m.id,
             showtimeId := sid, seats := S } ∧
      createBooking n sid seats? now st =
        (CreateResult.created bk,
         { movies := setInMovies st.movies sid S SeatStatus.booked,
           bookings := st.bookings ++ [bk] })) := by
  cases seats? with
  | none => left; exact ⟨rfl, fun bk h => by simp [createBooking] at h⟩
  | some S =>
    by_cases hn : n = ""
    · left
      constructor
      · simp [createBooking, hn]
      · intro bk h; simp [createBooking, hn] at h
    · by_cases hsid : sid = ""
      · left
        constructor
        · simp [createBooking, hn, hsid]
        · intro bk h; simp [createBooking, hn, hsid] at h
      · cases hres : findShowtime st.movies sid with
        | none =>
          left
          constructor
          · simp [createBooking, hn, hsid, hres]
          · intro bk h; simp [createBooking, hn, hsid, hres] at h
        | some ms =>
          obtain ⟨m, s⟩ := ms
          rw [createBooking_eq n sid S now st m s hn hsid hres]
          by_cases hU : specUnavail s S = []
          · right
            exact ⟨S, m, s, _, rfl, hn, hsid, rfl,
              (specUnavail_eq_nil_iff s S).mp hU, rfl, by rw [if_pos hU]⟩
          · left
            rw [if_neg hU]
            exact ⟨rfl, fun bk h => by simp at h⟩

theorem removeFirst_decomp (bid : String) (b : Booking) :
    ∀ (l : List Booking) (rest : List Booking), removeFirst l bid = some (b, rest) →
      ∃ pre post, l = pre ++ b :: post ∧ rest = pre ++ post ∧
        (∀ x ∈ pre, x.id ≠ bid) ∧ b.id = bid := by
  intro l
  induction l with
  | nil => intro rest h; simp [removeFirst] at h
  | cons a l ih =>
    intro rest h
    by_cases ha : a.id = bid
    · simp only [removeFirst, if_pos ha, Option.some.injEq, Prod.mk.injEq] at h
      obtain ⟨hab, hrest⟩ := h
      subst hab
      exact ⟨[], l, by simp, by simp [hrest], by simp, ha⟩
    · simp only [removeFirst, if_neg ha] at h
      cases hrec : removeFirst l bid with
      | none => rw [hrec] at h; simp at h
      | some p =>
        obtain ⟨b', rest'⟩ := p
        rw [hrec] at h
        simp only [Option.some.injEq, Prod.mk.injEq] at h
        obtain ⟨hb, hrest⟩ := h
        subst hb
        obtain ⟨pre, post, hl, hr, hpre, hid⟩ := ih rest' hrec
        exact ⟨a :: pre, post, by rw [hl]; rfl,
          by rw [← hrest, hr]; rfl, by
            intro x hx
            rcases List.mem_cons.mp hx with h | h
            · exact h ▸ ha
            · exact hpre x h, hid⟩

theorem cancelBooking_none (bid : String) (st : ServerState)
    (h : removeFirst st.bookings bid = none) :
    cancelBooking bid st = (CancelResult.bookingNotFound, st) := by
  simp [cancelBooking, h]

theorem cancelBooking_some (bid : String) (st : ServerState) (b : Booking)
    (rest : List Booking) (h : removeFirst st.bookings bid = some (b, rest)) :
    cancelBooking bid st =
      (CancelResult.canceled b.id,
       { movies := freeInMovies st.movies b.movieId b.showtimeId b.seats,
         bookings := rest }) := by
  simp [cancelBooking, h]

theorem removeFirst_append_last (bid : String) (b : Booking) (hb : b.id = bid) :
    ∀ l : List Booking, (∀ x ∈ l, x.id ≠ bid) →
      removeFirst (l ++ [b]) bid = some (b, l) := by
  intro l
  induction l with
  | nil => intro _; simp [removeFirst, hb]
  | cons a t ih =>
    intro hfresh
    have ha : a.id ≠ bid := hfresh a (List.mem_cons_self a t)
    simp only [List.cons_append, removeFirst, if_neg ha, List.append_eq]
    rw [ih (fun x hx => hfresh x (List.mem_cons_of_mem a hx))]

/-! ## The reachable-state invariant

Starting from the seeded state, the catalog always consists of the one
seeded movie and showtime; only the seat statuses vary.  Every booking
in the ledger refers to that showtime, all its seats are `booked` in
the seat map, and the seat lists of distinct ledger entries are
disjoint. -/

/-- The seeded catalog with an arbitrary assignment of seat statuses. -/
def mkMovie (ss : List Seat) : Movie :=
  { id := "m1", title := "Avengers: Endgame", duration := 180,
    showtimes := [{ id := "s1", time := seedTime, seats := ss }] }

/-- Two bookings claim no seat id in common. -/
def Disj (b1 b2 : Booking) : Prop := ∀ x ∈ b1.seats, x ∉ b2.seats

/-- The invariant maintained by serial execution from the seeded state. -/
def Inv (st : ServerState) : Prop :=
  ∃ ss, st.movies = [mkMovie ss] ∧
    (∀ b ∈ st.bookings, b.movieId = "m1" ∧ b.showtimeId = "s1" ∧
      ∀ x ∈ b.seats, statusOf ss x = some SeatStatus.booked) ∧
    List.Pairwise Disj st.bookings

theorem findShowtime_skeleton (ss : List Seat) (sid : String) :
    findShowtime [mkMovie ss] sid =
      if sid = "s1" then
        some (mkMovie ss, { id := "s1", time := seedTime, seats := ss })
      else none := by
  by_cases h : sid = "s1"
  · subst h
    simp [findShowtime, mkMovie]
  · have h' : ¬("s1" = sid) := fun e => h e.symm
    simp [findShowtime, mkMovie, h, h']

theorem setInMovies_skeleton (ss : List Seat) (S : List String) (stt : SeatStatus) :
    setInMovies [mkMovie ss] "s1" S stt = [mkMovie (setSeats ss S stt)] := by
  simp [setInMovies, mkMovie, setInShowtimes]

theorem freeInMovies_skeleton (ss : List Seat) (S : List String) :
    freeInMovies [mkMovie ss] "m1" "s1" S =
      [mkMovie (setSeats ss S SeatStatus.available)] := by
  simp [freeInMovies, mkMovie, setInShowtimes]

theorem inv_create (st : ServerState) (n sid : String) (seats? : Option (List String))
    (now : Nat) (h : Inv st) : Inv (createBooking n sid seats? now st).2 := by
  obtain ⟨ss, hm, hbk, hpw⟩ := h
  rcases create_master n sid seats? now st with
    ⟨h2, _⟩ | ⟨S, m, s, bk, hS, hn, hsid, hres, havail, hbkdef, heq⟩
  · rw [h2]; exact ⟨ss, hm, hbk, hpw⟩
  · rw [hm, findShowtime_skeleton] at hres
    by_cases hs1 : sid = "s1"
    · rw [if_pos hs1] at hres
      injection hres with hres'
      rw [Prod.mk.injEq] at hres'
      obtain ⟨hm2, hs2⟩ := hres'
      subst hm2; subst hs2; subst hs1; subst hbkdef
      rw [heq]
      rw [hm, setInMovies_skeleton]
      have havail' : ∀ x ∈ S, statusOf ss x = some SeatStatus.available := havail
      have hnotin : ∀ b ∈ st.bookings, ∀ x ∈ b.seats, x ∉ S := by
        intro b hb x hx hxS
        have h1 := (hbk b hb).2.2 x hx
        have h2 := havail' x hxS
        rw [h1] at h2
        exact absurd (Option.some.injEq .. ▸ h2) (by simp)
      refine ⟨setSeats ss S SeatStatus.booked, rfl, ?_, ?_⟩
      · intro b hb
        rcases List.mem_append.mp hb with hb | hb
        · obtain ⟨h1, h2, h3⟩ := hbk b hb
          refine ⟨h1, h2, ?_⟩
          intro x hx
          rw [statusOf_setSeats_not_mem _ _ _ _ (hnotin b hb x hx)]
          exact h3 x hx
        · have hb' := List.mem_singleton.mp hb
          subst hb'
          refine ⟨rfl, rfl, ?_⟩
          intro x hx
          exact statusOf_setSeats_mem _ _ _ _ hx (by rw [havail' x hx]; rfl)
      · rw [List.pairwise_append]
        refine ⟨hpw, List.pairwise_singleton .., ?_⟩
        intro a ha b' hb'
        have hb'' := List.mem_singleton.mp hb'
        subst hb''
        intro x hx
        exact hnotin a ha x hx
    · rw [if_neg hs1] at hres
      exact absurd hres (by simp)

theorem inv_cancel (st : ServerState) (bid : String) (h : Inv st) :
    Inv (cancelBooking bid st).2 := by
  obtain ⟨ss, hm, hbk, hpw⟩ := h
  cases hrem : removeFirst st.bookings bid with
  | none => rw [cancelBooking_none _ _ hrem]; exact ⟨ss, hm, hbk, hpw⟩
  | some p =>
    obtain ⟨b, rest⟩ := p
    rw [cancelBooking_some _ _ _ _ hrem]
    obtain ⟨pre, post, hl, hr, _, _⟩ := removeFirst_decomp bid b st.bookings rest hrem
    have hbmem : b ∈ st.bookings := by
      rw [hl]; exact List.mem_append.mpr (Or.inr (List.mem_cons_self b post))
    obtain ⟨hbm, hbs, hbooked⟩ := hbk b hbmem
    rw [hm, hbm, hbs, freeInMovies_skeleton]
    have hsub : rest.Sublist st.bookings := by
      rw [hl, hr]
      exact (List.sublist_cons_self b post).append_left pre
    have hdisj : ∀ b' ∈ rest, ∀ x ∈ b'.seats, x ∉ b.seats := by
      intro b' hb' x hx
      rw [hl] at hpw
      rw [hr] at hb'
      obtain ⟨hppre, hpcons, hcross⟩ := List.pairwise_append.mp hpw
      rcases List.mem_append.mp hb' with hpre | hpost
      · exact hcross b' hpre b (List.mem_cons_self b post) x hx
      · intro hxb
        exact (List.rel_of_pairwise_cons hpcons hpost) x hxb hx
    refine ⟨setSeats ss b.seats SeatStatus.available, rfl, ?_, ?_⟩
    · intro b' hb'
      obtain ⟨h1, h2, h3⟩ := hbk b' (hsub.subset hb')
      refine ⟨h1, h2, ?_⟩
      intro x hx
      rw [statusOf_setSeats_not_mem _ _ _ _ (hdisj b' hb' x hx)]
      exact h3 x hx
    · exact hpw.sublist hsub

theorem inv_seed : Inv seedState := by
  refine ⟨seedSeats, rfl, ?_, List.Pairwise.nil⟩
  intro b hb
  exact absurd hb (List.not_mem_nil b)

theorem inv_execOps : ∀ (ops : List Op) (st : ServerState), Inv st → Inv (execOps st ops) := by
  intro ops
  induction ops with
  | nil => intro st h; exact h
  | cons op ops ih =>
    intro st h
    have : execOps st (op :: ops) = execOps (applyOp st op) ops := rfl
    rw [this]
    refine ih _ ?_
    cases op with
    | create n sid seats now => exact inv_create st n sid seats now h
    | cancel bid => exact inv_cancel st bid h

/-- C1: in any serial sequence of CreateBooking and CancelBooking
operations starting from the seeded state, no seat identifier appears
in the seat lists of two simultaneously active bookings for the same
showing. -/
theorem C1_no_double_booking (ops : List Op) :
    List.Pairwise
      (fun b1 b2 => b1.showtimeId = b2.showtimeId → ∀ x ∈ b1.seats, x ∉ b2.seats)
      (execOps seedState ops).bookings := by
  obtain ⟨ss, _, _, hpw⟩ := inv_execOps ops seedState inv_seed
  exact hpw.imp (fun hd => fun _ => hd)

/-! ## Small concrete states used to instantiate the theorems -/

/-- A one-seat showtime whose only seat `A1` is booked, with a free
seat `A2`. -/
def bookedShow : Showtime :=
  { id := "s1", time := "t",
    seats := [{ id := "A1", status := SeatStatus.booked },
              { id := "A2", status := SeatStatus.available }] }

def bookedMovie : Movie :=
  { id := "m1", title := "T", duration := 100, showtimes := [bookedShow] }

def bookedSt : ServerState := { movies := [bookedMovie], bookings := [] }

/-- A showtime that does not contain seat id `A1` at all. -/
def missingShow : Showtime :=
  { id := "s1", time := "t",
    seats := [{ id := "B7", status := SeatStatus.available }] }

def missingMovie : Movie :=
  { id := "m1", title := "T", duration := 100, showtimes := [missingShow] }

def missingSt : ServerState := { movies := [missingMovie], bookings := [] }

/-- A ledger entry whose `movieId` resolves to no movie in the catalog
(data drift). -/
def driftBooking : Booking :=
  { id := "b1", customerName := "Alice", movieId := "mX", showtimeId := "s1",
    seats := ["A1"] }

def driftSt : ServerState := { movies := [bookedMovie], bookings := [driftBooking] }

/-! ## C2: SeatsUnavailable has no effect -/

/-- C2: if CreateBooking fails with `seats_unavailable` (HTTP 409), the
state written back is exactly the state read: no seat status and no
ledger entry changed. -/
theorem C2_seatsUnavailable_no_effect (n sid : String) (seats? : Option (List String))
    (now : Nat) (st st' : ServerState) (u : List String)
    (h : createBooking n sid seats? now st = (CreateResult.seatsUnavailable u, st')) :
    st' = st := by
  rcases create_master n sid seats? now st with ⟨h2, _⟩ | ⟨S, m, s, bk, _, _, _, _, _, _, heq⟩
  · rw [h] at h2; exact h2
  · rw [heq] at h
    exact absurd (congrArg Prod.fst h) (by simp)

theorem C2_witness :
    (createBooking "Bob" "s1" (some ["A1"]) 1 bookedSt).2 = bookedSt :=
  C2_seatsUnavailable_no_effect "Bob" "s1" (some ["A1"]) 1 bookedSt
    (createBooking "Bob" "s1" (some ["A1"]) 1 bookedSt).2 ["A1"] (by decide)

/-! ## C3: the 409 payload is exactly the unavailable subset -/

/-- C3: when validation and showing resolution succeed, CreateBooking
fails with `seats_unavailable` carrying exactly the subset of the
requested seat ids that are not currently available (absent ids counted
as unavailable) whenever that subset is non-empty, and succeeds
otherwise. -/
theorem C3_unavailable_exact (n sid : String) (S : List String) (now : Nat)
    (st : ServerState) (m : Movie) (s : Showtime)
    (hn : n ≠ "") (hsid : sid ≠ "")
    (hres : findShowtime st.movies sid = some (m, s)) :
    (specUnavail s S ≠ [] →
      createBooking n sid (some S) now st =
        (CreateResult.seatsUnavailable (specUnavail s S), st)) ∧
    (specUnavail s S = [] →
      ∃ bk st', createBooking n sid (some S) now st = (CreateResult.created bk, st')) := by
  rw [createBooking_eq n sid S now st m s hn hsid hres]
  constructor
  · intro hne; rw [if_neg hne]
  · intro he; rw [if_pos he]; exact ⟨_, _, rfl⟩

theorem C3_witness :
    createBooking "Bob" "s1" (some ["A1", "A2"]) 1 bookedSt =
      (CreateResult.seatsUnavailable (specUnavail bookedShow ["A1", "A2"]), bookedSt) :=
  (C3_unavailable_exact "Bob" "s1" ["A1", "A2"] 1 bookedSt bookedMovie bookedShow
    (by decide) (by decide) (by decide)).1 (by decide)

/-! ## C5: the validation predicate -/

/-- C5 (amended): CreateBooking answers `invalid_request` (HTTP 400)
exactly when the customer name is empty, the showtime id is empty, or
the request's `seats` field is not an array.  In particular an empty
seat list (and a list with duplicates) passes validation. -/
theorem C5_invalid_iff (n sid : String) (seats? : Option (List String)) (now : Nat)
    (st : ServerState) :
    (createBooking n sid seats? now st).1 = CreateResult.invalidRequest ↔
      (n = "" ∨ sid = "" ∨ seats? = none) := by
  cases seats? with
  | none => simp [createBooking]
  | some S =>
    by_cases hn : n = ""
    · simp [createBooking, hn]
    · by_cases hsid : sid = ""
      · simp [createBooking, hn, hsid]
      · cases hres : findShowtime st.movies sid with
        | none => simp [createBooking, hn, hsid, hres]
        | some ms =>
          obtain ⟨m, s⟩ := ms
          rw [createBooking_eq n sid S now st m s hn hsid hres]
          by_cases hU : specUnavail s S = []
          · rw [if_pos hU]; simp [hn, hsid]
          · rw [if_neg hU]; simp [hn, hsid]

/-- C5 counterexample: a request with an empty seat list is *not*
rejected; on the seeded state it creates a booking with no seats. -/
theorem C5_cex :
    (createBooking "Alice" "s1" (some []) 0 seedState).1 =
      CreateResult.created
        { id := "b0", customerName := "Alice", movieId := "m1",
          showtimeId := "s1", seats := [] } := by
  decide

theorem C5_witness :
    (createBooking "" "s1" (some ["A1"]) 0 seedState).1 = CreateResult.invalidRequest :=
  (C5_invalid_iff "" "s1" (some ["A1"]) 0 seedState).mpr (Or.inl rfl)

/-! ## C6: unknown seat ids are not distinguished from booked ones -/

/-- C6 counterexample: a request for a seat id that exists but is
booked and a request for a seat id absent from the seat map produce the
*same* response, so the caller cannot distinguish the two situations. -/
theorem C6_cex :
    (createBooking "Alice" "s1" (some ["A1"]) 0 bookedSt).1 =
      (createBooking "Alice" "s1" (some ["A1"]) 0 missingSt).1 ∧
    statusOf bookedShow.seats "A1" = some SeatStatus.booked ∧
    statusOf missingShow.seats "A1" = none := by
  decide

/-- C6 (amended): a seat id absent from the resolved showtime's seat
map is reported through the same `seats_unavailable` list as seats that
exist but are booked; no separate error distinguishes them. -/
theorem C6_unknown_reported_as_unavailable (n sid : String) (S : List String)
    (now : Nat) (st : ServerState) (m : Movie) (s : Showtime) (x : String)
    (hn : n ≠ "") (hsid : sid ≠ "")
    (hres : findShowtime st.movies sid = some (m, s))
    (hx : x ∈ S) (hunknown : statusOf s.seats x = none) :
    ∃ u, createBooking n sid (some S) now st = (CreateResult.seatsUnavailable u, st) ∧
      x ∈ u ∧ ∀ y ∈ S, statusOf s.seats y = some SeatStatus.booked → y ∈ u := by
  have hxu : x ∈ specUnavail s S := List.mem_filter.mpr ⟨hx, by simp [hunknown]⟩
  have hne : specUnavail s S ≠ [] := fun he => by
    rw [he] at hxu; exact List.not_mem_nil x hxu
  refine ⟨specUnavail s S, ?_, hxu, ?_⟩
  · rw [createBooking_eq n sid S now st m s hn hsid hres, if_neg hne]
  · intro y hy hb
    exact List.mem_filter.mpr ⟨hy, by simp [hb]⟩

theorem C6_witness :
    ∃ u, createBooking "Alice" "s1" (some ["A1"]) 0 missingSt =
        (CreateResult.seatsUnavailable u, missingSt) ∧
      "A1" ∈ u ∧
      ∀ y ∈ ["A1"], statusOf missingShow.seats y = some SeatStatus.booked → y ∈ u :=
  C6_unknown_reported_as_unavailable "Alice" "s1" ["A1"] 0 missingSt missingMovie
    missingShow "A1" (by decide) (by decide) (by decide) (by decide) (by decide)

/-! ## C7: cancellation tolerates catalog drift -/

theorem setInShowtimes_no_match (sid : String) (xs : List String) (stt : SeatStatus) :
    ∀ sts : List Showtime, (∀ s ∈ sts, s.id ≠ sid) →
      setInShowtimes sts sid xs stt = sts := by
  intro sts
  induction sts with
  | nil => intro _; rfl
  | cons s rest ih =>
    intro h
    have hs : s.id ≠ sid := h s (List.mem_cons_self s rest)
    simp only [setInShowtimes, if_neg hs]
    rw [ih (fun s' hs' => h s' (List.mem_cons_of_mem s hs'))]

theorem freeInMovies_no_movie (mid sid : String) (xs : List String) :
    ∀ movies : List Movie, (∀ m ∈ movies, m.id ≠ mid) →
      freeInMovies movies mid sid xs = movies := by
  intro movies
  induction movies with
  | nil => intro _; rfl
  | cons m rest ih =>
    intro h
    have hm : m.id ≠ mid := h m (List.mem_cons_self m rest)
    simp only [freeInMovies, if_neg hm]
    rw [ih (fun m' hm' => h m' (List.mem_cons_of_mem m hm'))]

theorem freeInMovies_no_showtime (mid sid : String) (xs : List String) :
    ∀ movies : List Movie, (∀ m ∈ movies, ∀ s ∈ m.showtimes, s.id ≠ sid) →
      freeInMovies movies mid sid xs = movies := by
  intro movies
  induction movies with
  | nil => intro _; rfl
  | cons m rest ih =>
    intro h
    by_cases hm : m.id = mid
    · simp only [freeInMovies, if_pos hm]
      rw [setInShowtimes_no_match sid xs SeatStatus.available m.showtimes
        (h m (List.mem_cons_self m rest))]
    · simp only [freeInMovies, if_neg hm]
      rw [ih (fun m' hm' => h m' (List.mem_cons_of_mem m hm'))]

/-- C7: cancelling a booking found in the ledger always succeeds with
HTTP 200 and removes exactly that entry, even when the booking's movie
or showtime no longer resolves in the catalog; in the unresolvable
cases seat-state restoration is skipped and the catalog is left as it
was, but the operation does not fail. -/
theorem C7_cancel_tolerates_drift (bid : String) (st : ServerState) (b : Booking)
    (rest : List Booking) (hrem : removeFirst st.bookings bid = some (b, rest)) :
    (cancelBooking bid st).1 = CancelResult.canceled b.id ∧
    (cancelBooking bid st).2.bookings = rest ∧
    ((∀ m ∈ st.movies, m.id ≠ b.movieId) →
      (cancelBooking bid st).2.movies = st.movies) ∧
    ((∀ m ∈ st.movies, ∀ s ∈ m.showtimes, s.id ≠ b.showtimeId) →
      (cancelBooking bid st).2.movies = st.movies) := by
  rw [cancelBooking_some bid st b rest hrem]
  exact ⟨rfl, rfl,
    fun h => freeInMovies_no_movie _ _ _ _ h,
    fun h => freeInMovies_no_showtime _ _ _ _ h⟩

theorem C7_witness :
    (cancelBooking "b1" driftSt).1 = CancelResult.canceled "b1" ∧
    (cancelBooking "b1" driftSt).2.bookings = [] ∧
    (cancelBooking "b1" driftSt).2.movies = driftSt.movies :=
  ⟨(C7_cancel_tolerates_drift "b1" driftSt driftBooking [] (by decide)).1,
   (C7_cancel_tolerates_drift "b1" driftSt driftBooking [] (by decide)).2.1,
   (C7_cancel_tolerates_drift "b1" driftSt driftBooking [] (by decide)).2.2.1 (by decide)⟩

/-! ## C8: listing bookings -/

theorem isPrefixOf_iff_exists :
    ∀ n h : List Char, n.isPrefixOf h = true ↔ ∃ t, h = n ++ t := by
  intro n
  induction n with
  | nil =>
    intro h
    constructor
    · intro _; exact ⟨h, rfl⟩
    · intro _; cases h <;> simp [List.isPrefixOf]
  | cons a n ih =>
    intro h
    cases h with
    | nil =>
      constructor
      · intro hx; simp [List.isPrefixOf] at hx
      · rintro ⟨t, ht⟩; simp at ht
    | cons b t =>
      simp only [List.isPrefixOf, Bool.and_eq_true, beq_iff_eq]
      constructor
      · rintro ⟨hab, hpre⟩
        obtain ⟨r, hr⟩ := (ih t).mp hpre
        subst hab
        exact ⟨r, by rw [hr]; rfl⟩
      · rintro ⟨r, hr⟩
        have hr' : b :: t = a :: (n ++ r) := hr
        injection hr' with h1 h2
        exact ⟨h1.symm, (ih t).mpr ⟨r, h2⟩⟩

theorem strIncludes_iff :
    ∀ hay needle : List Char, strIncludes hay needle = true ↔ ∃ l r, hay = l ++ needle ++ r := by
  intro hay
  induction hay with
  | nil =>
    intro needle
    cases needle with
    | nil =>
      constructor
      · intro _; exact ⟨[], [], rfl⟩
      · intro _; decide
    | cons a t =>
      constructor
      · intro hx; simp [strIncludes, List.isPrefixOf] at hx
      · rintro ⟨l, r, hlr⟩
        exact absurd hlr.symm (by simp)
  | cons c hs ih =>
    intro needle
    simp only [strIncludes, Bool.or_eq_true]
    rw [isPrefixOf_iff_exists, ih]
    constructor
    · rintro (⟨t, ht⟩ | ⟨l, r, hlr⟩)
      · exact ⟨[], t, by rw [ht]; rfl⟩
      · exact ⟨c :: l, r, by rw [hlr]; rfl⟩
    · rintro ⟨l, r, hlr⟩
      cases l with
      | nil => exact Or.inl ⟨r, by simpa using hlr⟩
      | cons x l' =>
        right
        have hlr' : c :: hs = x :: (l' ++ needle ++ r) := hlr
        injection hlr' with h1 h2
        exact ⟨l', r, h2⟩

theorem lowerStr_eq_empty_iff (s : String) : lowerStr s = "" ↔ s = "" := by
  constructor
  · intro h
    have hd : (lowerStr s).data = ("" : String).data := congrArg String.data h
    simp only [lowerStr] at hd
    have hnil : s.data.map Char.toLower = [] := hd
    have : s.data = [] := List.map_eq_nil_iff.mp hnil
    exact String.ext this
  · intro h; rw [h]; rfl

/-- The matching predicate of `GET /api/bookings?customer=`, stated the
way the ledger contract does: the filter occurs in the customer name as
a case-insensitive contiguous substring. -/
def SubstrCI (q name : String) : Prop :=
  ∃ l r, (lowerStr name).data = l ++ (lowerStr q).data ++ r

instance instDecSubstrCI (q name : String) : Decidable (SubstrCI q name) :=
  decidable_of_iff (strIncludes (lowerStr name).data (lowerStr q).data = true)
    (by rw [strIncludes_iff]; exact Iff.rfl)

theorem decide_SubstrCI (q name : String) :
    decide (SubstrCI q name) = strIncludes (lowerStr name).data (lowerStr q).data := by
  by_cases h : SubstrCI q name
  · rw [decide_eq_true h]
    exact ((strIncludes_iff _ _).mpr h).symm
  · rw [decide_eq_false h]
    cases hb : strIncludes (lowerStr name).data (lowerStr q).data with
    | false => rfl
    | true => exact absurd ((strIncludes_iff _ _).mp hb) h

/-- C8: ListBookings changes no state; with an absent or empty customer
filter it returns the full ledger in insertion order, and with a
non-empty filter exactly the ledger entries whose customer name
contains the filter as a case-insensitive substring, still in insertion
order (a `filter` of the ledger). -/
theorem C8_listBookings (customer? : Option String) (st : ServerState) :
    (listBookings customer? st).2 = st ∧
    ((customer? = none ∨ customer? = some "") →
      (listBookings customer? st).1 = st.bookings) ∧
    (∀ q, customer? = some q → q ≠ "" →
      (listBookings customer? st).1 =
        st.bookings.filter (fun b => decide (SubstrCI q b.customerName))) := by
  refine ⟨?_, ?_, ?_⟩
  · unfold listBookings
    dsimp only
    split <;> rfl
  · rintro (h | h) <;> subst h <;> rfl
  · intro q hq hne
    subst hq
    have hlq : lowerStr q ≠ "" := fun h => hne ((lowerStr_eq_empty_iff q).mp h)
    unfold listBookings
    simp only [Option.getD_some]
    rw [if_neg hlq]
    exact List.filter_congr (fun b _ => (decide_SubstrCI q b.customerName).symm)

def bookingAlice : Booking :=
  { id := "b1", customerName := "Alice", movieId := "m1", showtimeId := "s1",
    seats := ["A1"] }

def bookingBob : Booking :=
  { id := "b2", customerName := "Bob", movieId := "m1", showtimeId := "s1",
    seats := ["A2"] }

def ledgerSt : ServerState := { movies := [], bookings := [bookingAlice, bookingBob] }

theorem C8_witness :
    (listBookings (some "LI") ledgerSt).1 =
      ledgerSt.bookings.filter (fun b => decide (SubstrCI "LI" b.customerName)) :=
  (C8_listBookings (some "LI") ledgerSt).2.2 "LI" rfl (by decide)

/-! ## C10: frame property of a successful CreateBooking -/

theorem find?_decomp {α : Type} (p : α → Bool) :
    ∀ (l : List α) (a : α), l.find? p = some a →
      ∃ pre post, l = pre ++ a :: post ∧ (∀ x ∈ pre, p x = false) ∧ p a = true := by
  intro l
  induction l with
  | nil => intro a h; simp at h
  | cons x xs ih =>
    intro a h
    cases hx : p x with
    | true =>
      rw [List.find?_cons_of_pos _ hx] at h
      injection h with h1
      subst h1
      exact ⟨[], xs, rfl, by simp, hx⟩
    | false =>
      rw [List.find?_cons_of_neg _ (by simp [hx])] at h
      obtain ⟨pre, post, hl, hpre, hpa⟩ := ih a h
      refine ⟨x :: pre, post, by rw [hl]; rfl, ?_, hpa⟩
      intro y hy
      rcases List.mem_cons.mp hy with hy | hy
      · exact hy ▸ hx
      · exact hpre y hy

theorem findShowtime_decomp (sid : String) :
    ∀ (movies : List Movie) (m : Movie) (s : Showtime),
      findShowtime movies sid = some (m, s) →
      ∃ mpre mpost, movies = mpre ++ m :: mpost ∧
        (∀ m' ∈ mpre, m'.showtimes.find? (fun x => decide (x.id = sid)) = none) ∧
        m.showtimes.find? (fun x => decide (x.id = sid)) = some s := by
  intro movies
  induction movies with
  | nil => intro m s h; simp [findShowtime] at h
  | cons a rest ih =>
    intro m s h
    cases hf : a.showtimes.find? (fun x => decide (x.id = sid)) with
    | some s0 =>
      simp only [findShowtime, hf] at h
      obtain ⟨h1, h2⟩ := Prod.mk.injEq .. ▸ Option.some.injEq .. ▸ h
      subst h1; subst h2
      exact ⟨[], rest, rfl, by simp, hf⟩
    | none =>
      simp only [findShowtime, hf] at h
      obtain ⟨mpre, mpost, hmv, hpre, hfind⟩ := ih m s h
      refine ⟨a :: mpre, mpost, by rw [hmv]; rfl, ?_, hfind⟩
      intro m' hm'
      rcases List.mem_cons.mp hm' with hm' | hm'
      · exact hm' ▸ hf
      · exact hpre m' hm'

theorem setInShowtimes_decomp (sid : String) (S : List String) (stt : SeatStatus) :
    ∀ (spre : List Showtime) (s : Showtime) (spost : List Showtime),
      (∀ x ∈ spre, x.id ≠ sid) → s.id = sid →
      setInShowtimes (spre ++ s :: spost) sid S stt =
        spre ++ { s with seats := setSeats s.seats S stt } :: spost := by
  intro spre
  induction spre with
  | nil =>
    intro s spost _ hs
    simp only [List.nil_append, setInShowtimes, if_pos hs]
  | cons a rest ih =>
    intro s spost hpre hs
    have ha : a.id ≠ sid := hpre a (List.mem_cons_self a rest)
    simp only [List.cons_append, setInShowtimes, if_neg ha, List.append_eq]
    rw [ih s spost (fun x hx => hpre x (List.mem_cons_of_mem a hx)) hs]

theorem setInMovies_decomp (sid : String) (S : List String) (stt : SeatStatus) :
    ∀ (mpre : List Movie) (m : Movie) (mpost : List Movie),
      (∀ m' ∈ mpre, m'.showtimes.find? (fun x => decide (x.id = sid)) = none) →
      (m.showtimes.find? (fun x => decide (x.id = sid))).isSome = true →
      setInMovies (mpre ++ m :: mpost) sid S stt =
        mpre ++ { m with showtimes := setInShowtimes m.showtimes sid S stt } :: mpost := by
  intro mpre
  induction mpre with
  | nil =>
    intro m mpost _ hm
    cases hf : m.showtimes.find? (fun x => decide (x.id = sid)) with
    | none => rw [hf] at hm; simp at hm
    | some s0 => simp only [List.nil_append, setInMovies, hf]
  | cons a rest ih =>
    intro m mpost hpre hm
    have ha := hpre a (List.mem_cons_self a rest)
    simp only [List.cons_append, setInMovies, ha, List.append_eq]
    rw [ih m mpost (fun m' hm' => hpre m' (List.mem_cons_of_mem a hm')) hm]

/-- How a successful booking may change one seat: the id is preserved,
and if the seat object changed at all then its id was requested and its
new status is `booked`. -/
def seatFrame (S : List String) (a a' : Seat) : Prop :=
  a'.id = a.id ∧ (a' ≠ a → a.id ∈ S ∧ a'.status = SeatStatus.booked)

theorem seatFrame_refl (S : List String) (a : Seat) : seatFrame S a a :=
  ⟨rfl, fun h => absurd rfl h⟩

theorem forall2_seatFrame_refl (S : List String) :
    ∀ l : List Seat, List.Forall₂ (seatFrame S) l l := by
  intro l
  induction l with
  | nil => exact List.Forall₂.nil
  | cons a rest ih => exact List.Forall₂.cons (seatFrame_refl S a) ih

theorem seatFrame_trans {S : List String} {a b c : Seat}
    (h1 : seatFrame S a b) (h2 : seatFrame S b c) : seatFrame S a c := by
  obtain ⟨hid1, hc1⟩ := h1
  obtain ⟨hid2, hc2⟩ := h2
  refine ⟨hid2.trans hid1, ?_⟩
  intro hne
  by_cases hcb : c = b
  · subst hcb
    have hba : c ≠ a := hne
    exact hc1 hba
  · have h := hc2 hcb
    exact ⟨hid1 ▸ h.1, h.2⟩

theorem forall2_seatFrame_trans (S : List String) :
    ∀ {l1 l2 l3 : List Seat}, List.Forall₂ (seatFrame S) l1 l2 →
      List.Forall₂ (seatFrame S) l2 l3 → List.Forall₂ (seatFrame S) l1 l3 := by
  intro l1 l2 l3 h12
  induction h12 generalizing l3 with
  | nil => intro h23; cases h23; exact List.Forall₂.nil
  | cons h hrest ih =>
    intro h23
    cases h23 with
    | cons h' hrest' => exact List.Forall₂.cons (seatFrame_trans h h') (ih hrest')

theorem forall2_setSeat (S : List String) (y : String) (hy : y ∈ S) :
    ∀ l : List Seat, List.Forall₂ (seatFrame S) l (setSeat l y SeatStatus.booked) := by
  intro l
  induction l with
  | nil => exact List.Forall₂.nil
  | cons a rest ih =>
    by_cases ha : a.id = y
    · simp only [setSeat, if_pos ha]
      exact List.Forall₂.cons ⟨rfl, fun _ => ⟨ha ▸ hy, rfl⟩⟩ (forall2_seatFrame_refl S rest)
    · simp only [setSeat, if_neg ha]
      exact List.Forall₂.cons (seatFrame_refl S a) ih

theorem forall2_setSeats (S : List String) :
    ∀ S' : List String, (∀ y ∈ S', y ∈ S) →
      ∀ l : List Seat, List.Forall₂ (seatFrame S) l (setSeats l S' SeatStatus.booked) := by
  intro S'
  induction S' with
  | nil => intro _ l; exact forall2_seatFrame_refl S l
  | cons y ys ih =>
    intro hsub l
    simp only [setSeats]
    exact forall2_seatFrame_trans S
      (forall2_setSeat S y (hsub y (List.mem_cons_self y ys)) l)
      (ih (fun z hz => hsub z (List.mem_cons_of_mem y hz)) (setSeat l y SeatStatus.booked))

/-- C10: a successful CreateBooking appends exactly one ledger entry
and changes nothing else except seat statuses of the requested ids
inside the one resolved showtime of the one resolved movie: all other
movies and showtimes are untouched, the movie's id/title/duration and
the showtime's id/time are preserved, all seat ids are preserved, and
any seat object that changed had a requested id and is now `booked`. -/
theorem C10_create_frame (n sid : String) (S : List String) (now : Nat)
    (st : ServerState) (bk : Booking) (st' : ServerState)
    (h : createBooking n sid (some S) now st = (CreateResult.created bk, st')) :
    st'.bookings = st.bookings ++ [bk] ∧
    ∃ mpre m m' mpost, st.movies = mpre ++ m :: mpost ∧
      st'.movies = mpre ++ m' :: mpost ∧
      m'.id = m.id ∧ m'.title = m.title ∧ m'.duration = m.duration ∧
      ∃ spre s s' spost, m.showtimes = spre ++ s :: spost ∧
        m'.showtimes = spre ++ s' :: spost ∧ s'.id = s.id ∧ s'.time = s.time ∧
        List.Forall₂ (seatFrame S) s.seats s'.seats := by
  rcases create_master n sid (some S) now st with
    ⟨_, hno⟩ | ⟨S0, m, s, bk0, hS0, hn, hsid, hres, havail, hbk0, heq⟩
  · exact absurd (congrArg Prod.fst h) (hno bk)
  · injection hS0 with hS0'
    subst hS0'
    rw [heq] at h
    injection h with h1 h2
    injection h1 with h1'
    subst h1'
    subst h2
    refine ⟨rfl, ?_⟩
    obtain ⟨mpre, mpost, hmv, hpre, hfind⟩ := findShowtime_decomp sid st.movies m s hres
    obtain ⟨spre, spost, hshw, hspre, hps⟩ :=
      find?_decomp (fun x => decide (x.id = sid)) m.showtimes s hfind
    have hsid_s : s.id = sid := of_decide_eq_true hps
    have hspre' : ∀ x ∈ spre, x.id ≠ sid := fun x hx => of_decide_eq_false (hspre x hx)
    refine ⟨mpre, m,
      { m with showtimes := setInShowtimes m.showtimes sid S SeatStatus.booked },
      mpost, hmv, ?_, rfl, rfl, rfl, ?_⟩
    · show setInMovies st.movies sid S SeatStatus.booked = _
      rw [hmv]
      exact setInMovies_decomp sid S SeatStatus.booked mpre m mpost hpre
        (by rw [hfind]; rfl)
    · refine ⟨spre, s, { s with seats := setSeats s.seats S SeatStatus.booked },
        spost, hshw, ?_, rfl, rfl, ?_⟩
      · show setInShowtimes m.showtimes sid S SeatStatus.booked = _
        rw [hshw]
        exact setInShowtimes_decomp sid S SeatStatus.booked spre s spost hspre' hsid_s
      · exact forall2_setSeats S S (fun y hy => hy) s.seats

def freeShow : Showtime :=
  { id := "s1", time := "t", seats := [{ id := "A1", status := SeatStatus.available }] }

def freeMovie : Movie :=
  { id := "m1", title := "T", duration := 100, showtimes := [freeShow] }

def freeSt : ServerState := { movies := [freeMovie], bookings := [] }

def freeBk : Booking :=
  { id := "b5", customerName := "Alice", movieId := "m1", showtimeId := "s1",
    seats := ["A1"] }

theorem C10_witness :
    ((createBooking "Alice" "s1" (some ["A1"]) 5 freeSt).2).bookings =
      freeSt.bookings ++ [freeBk] ∧
    ∃ mpre m m' mpost, freeSt.movies = mpre ++ m :: mpost ∧
      ((createBooking "Alice" "s1" (some ["A1"]) 5 freeSt).2).movies =
        mpre ++ m' :: mpost ∧
      m'.id = m.id ∧ m'.title = m.title ∧ m'.duration = m.duration ∧
      ∃ spre s s' spost, m.showtimes = spre ++ s :: spost ∧
        m'.showtimes = spre ++ s' :: spost ∧ s'.id = s.id ∧ s'.time = s.time ∧
        List.Forall₂ (seatFrame ["A1"]) s.seats s'.seats :=
  C10_create_frame "Alice" "s1" ["A1"] 5 freeSt freeBk
    (createBooking "Alice" "s1" (some ["A1"]) 5 freeSt).2 (by decide)

/-! ## C4: the cancellation round-trip -/

/-- A state the server can be in after serially executing some
requests against the seeded state. -/
def Reachable (st : ServerState) : Prop := ∃ ops, st = execOps seedState ops

theorem inv_of_reachable (st : ServerState) (h : Reachable st) : Inv st := by
  obtain ⟨ops, hst⟩ := h
  rw [hst]
  exact inv_execOps ops seedState inv_seed

/-- C4 (amended): from any reachable state, if CreateBooking succeeds
with seat list `S` *and the freshly minted booking id does not already
occur in the ledger*, then CancelBooking of the returned id succeeds,
every seat in `S` is `available` again, and a CreateBooking for the
same showing with the same `S` succeeds.  (Without the freshness
proviso the claim is false: see the counterexample, where a colliding
`Date.now()` id makes the cancellation remove the wrong booking.) -/
theorem C4_roundtrip (st : ServerState) (hreach : Reachable st) (n sid : String)
    (S : List String) (now now2 : Nat) (bk : Booking) (st1 : ServerState)
    (hc : createBooking n sid (some S) now st = (CreateResult.created bk, st1))
    (hfresh : ∀ b ∈ st.bookings, b.id ≠ mkBookingId now) :
    (cancelBooking bk.id st1).1 = CancelResult.canceled bk.id ∧
    (∀ x ∈ S, seatStatus (cancelBooking bk.id st1).2 sid x = some SeatStatus.available) ∧
    (∃ bk2 st3, createBooking n sid (some S) now2 (cancelBooking bk.id st1).2 =
      (CreateResult.created bk2, st3)) := by
  obtain ⟨ss, hm, hbkinv, hpw⟩ := inv_of_reachable st hreach
  rcases create_master n sid (some S) now st with
    ⟨_, hno⟩ | ⟨S0, m, s, bk0, hS0, hn, hsid, hres, havail, hbk0, heq⟩
  · exact absurd (congrArg Prod.fst hc) (hno bk)
  · injection hS0 with hS0'
    subst hS0'
    rw [heq] at hc
    injection hc with h1 h2
    injection h1 with h1'
    subst h1'
    rw [hm, findShowtime_skeleton] at hres
    by_cases hs1 : sid = "s1"
    case neg => rw [if_neg hs1] at hres; exact absurd hres (by simp)
    rw [if_pos hs1] at hres
    injection hres with hres'
    rw [Prod.mk.injEq] at hres'
    obtain ⟨hm2, hs2⟩ := hres'
    subst hm2
    subst hs2
    subst hs1
    have havail' : ∀ x ∈ S, statusOf ss x = some SeatStatus.available := havail
    have hid : bk0.id = mkBookingId now := by rw [hbk0]
    have hmid : bk0.movieId = "m1" := by rw [hbk0]; rfl
    have hsid0 : bk0.showtimeId = "s1" := by rw [hbk0]
    have hseats : bk0.seats = S := by rw [hbk0]
    have hbooks : st1.bookings = st.bookings ++ [bk0] := by rw [← h2]
    have hmovies : st1.movies = setInMovies st.movies "s1" S SeatStatus.booked := by
      rw [← h2]
    have hrem1 : removeFirst st1.bookings bk0.id = some (bk0, st.bookings) := by
      rw [hbooks, hid]
      exact removeFirst_append_last (mkBookingId now) bk0 hid st.bookings
        (fun x hx => hfresh x hx)
    have hcan := cancelBooking_some bk0.id st1 bk0 st.bookings hrem1
    have hfreed : freeInMovies st1.movies bk0.movieId bk0.showtimeId bk0.seats =
        [mkMovie (setSeats (setSeats ss S SeatStatus.booked) S SeatStatus.available)] := by
      rw [hmovies, hm, setInMovies_skeleton, hmid, hsid0, hseats, freeInMovies_skeleton]
    have hmv2 : (cancelBooking bk0.id st1).2.movies =
        [mkMovie (setSeats (setSeats ss S SeatStatus.booked) S SeatStatus.available)] := by
      rw [hcan]
      exact hfreed
    have hstatus : ∀ x ∈ S,
        statusOf (setSeats (setSeats ss S SeatStatus.booked) S SeatStatus.available) x =
          some SeatStatus.available := by
      intro x hx
      refine statusOf_setSeats_mem _ _ _ _ hx ?_
      rw [statusOf_setSeats_isSome, havail' x hx]
      rfl
    refine ⟨by rw [hcan], ?_, ?_⟩
    · intro x hx
      unfold seatStatus
      rw [hmv2, findShowtime_skeleton, if_pos rfl]
      exact hstatus x hx
    · have hres2 : findShowtime (cancelBooking bk0.id st1).2.movies "s1" =
          some (mkMovie (setSeats (setSeats ss S SeatStatus.booked) S SeatStatus.available),
            { id := "s1", time := seedTime,
              seats := setSeats (setSeats ss S SeatStatus.booked) S SeatStatus.available }) := by
        rw [hmv2, findShowtime_skeleton, if_pos rfl]
      have hU : specUnavail
          { id := "s1", time := seedTime,
            seats := setSeats (setSeats ss S SeatStatus.booked) S SeatStatus.available } S = [] :=
        (specUnavail_eq_nil_iff _ _).mpr hstatus
      have heq2 := createBooking_eq n "s1" S now2 (cancelBooking bk0.id st1).2 _ _ hn hsid hres2
      rw [if_pos hU] at heq2
      exact ⟨_, _, heq2⟩

/-- The seeded state after Alice books seat `A1` at `Date.now() = 0`. -/
def seedAfterAlice : ServerState :=
  (createBooking "Alice" "s1" (some ["A1"]) 0 seedState).2

/-- … and after Bob then books seat `A2`, also at `Date.now() = 0`,
which mints the *same* booking id `b0`. -/
def seedAfterBob : ServerState :=
  (createBooking "Bob" "s1" (some ["A2"]) 0 seedAfterAlice).2

/-- C4 counterexample: Bob's CreateBooking succeeds and returns id
`b0`, CancelBooking of that returned id answers 200, yet Bob's seat
`A2` is still `booked` afterwards and repeating his request is refused
with 409 — because the returned id collided with Alice's earlier
booking and the cancellation removed hers instead. -/
theorem C4_cex :
    (createBooking "Bob" "s1" (some ["A2"]) 0 seedAfterAlice).1 =
      CreateResult.created
        { id := "b0", customerName := "Bob", movieId := "m1",
          showtimeId := "s1", seats := ["A2"] } ∧
    (cancelBooking "b0" seedAfterBob).1 = CancelResult.canceled "b0" ∧
    seatStatus (cancelBooking "b0" seedAfterBob).2 "s1" "A2" = some SeatStatus.booked ∧
    (createBooking "Bob" "s1" (some ["A2"]) 1 (cancelBooking "b0" seedAfterBob).2).1 =
      CreateResult.seatsUnavailable ["A2"] := by
  decide

def aliceBk : Booking :=
  { id := "b0", customerName := "Alice", movieId := "m1", showtimeId := "s1",
    seats := ["A1", "A2"] }

def aliceSt1 : ServerState :=
  (createBooking "Alice" "s1" (some ["A1", "A2"]) 0 seedState).2

theorem C4_witness :
    (cancelBooking aliceBk.id aliceSt1).1 = CancelResult.canceled aliceBk.id ∧
    (∀ x ∈ ["A1", "A2"],
      seatStatus (cancelBooking aliceBk.id aliceSt1).2 "s1" x =
        some SeatStatus.available) ∧
    (∃ bk2 st3, createBooking "Alice" "s1" (some ["A1", "A2"]) 1
        (cancelBooking aliceBk.id aliceSt1).2 = (CreateResult.created bk2, st3)) :=
  C4_roundtrip seedState ⟨[], rfl⟩ "Alice" "s1" ["A1", "A2"] 0 1 aliceBk aliceSt1
    (by decide) (fun b hb => absurd hb (List.not_mem_nil b))

/-! ## C9: booking-id uniqueness

`server.js:115` mints ids as `'b' + Date.now()`.  Distinct timestamps
give distinct ids because the decimal representation of a natural
number is injective — proved here from the core `Nat.toDigitsCore`. -/

theorem toDigitsCore_acc (b : Nat) :
    ∀ (f n : Nat) (ds : List Char),
      Nat.toDigitsCore b f n ds = Nat.toDigitsCore b f n [] ++ ds := by
  intro f
  induction f with
  | zero => intro n ds; rfl
  | succ f ih =>
    intro n ds
    simp only [Nat.toDigitsCore]
    by_cases h : n / b = 0
    · rw [if_pos h, if_pos h]
      rfl
    · rw [if_neg h, if_neg h]
      rw [ih (n / b) ((n % b).digitChar :: ds), ih (n / b) [(n % b).digitChar]]
      simp [List.append_assoc]

theorem toDigitsCore_fuel (b : Nat) (hb : 2 ≤ b) :
    ∀ (n f f' : Nat), n < f → n < f' →
      Nat.toDigitsCore b f n [] = Nat.toDigitsCore b f' n [] := by
  intro n
  induction n using Nat.strong_induction_on with
  | _ n ih =>
    intro f f' hf hf'
    cases f with
    | zero => exact absurd hf (Nat.not_lt_zero n)
    | succ g =>
      cases f' with
      | zero => exact absurd hf' (Nat.not_lt_zero n)
      | succ g' =>
        simp only [Nat.toDigitsCore]
        by_cases hdiv : n / b = 0
        · rw [if_pos hdiv, if_pos hdiv]
        · rw [if_neg hdiv, if_neg hdiv]
          rw [toDigitsCore_acc b g (n / b) _, toDigitsCore_acc b g' (n / b) _]
          have hn0 : 0 < n := Nat.pos_of_ne_zero (fun h0 => hdiv (by rw [h0]; exact Nat.zero_div b))
          have hlt : n / b < n := Nat.div_lt_self hn0 (lt_of_lt_of_le (by decide) hb)
          have hg : n / b < g := lt_of_lt_of_le hlt (Nat.lt_succ_iff.mp hf)
          have hg' : n / b < g' := lt_of_lt_of_le hlt (Nat.lt_succ_iff.mp hf')
          rw [ih (n / b) hlt g g' hg hg']

theorem toDigits_step (b : Nat) (hb : 2 ≤ b) (n : Nat) (hn : b ≤ n) :
    Nat.toDigits b n = Nat.toDigits b (n / b) ++ [Nat.digitChar (n % b)] := by
  unfold Nat.toDigits
  simp only [Nat.toDigitsCore]
  have hb0 : 0 < b := lt_of_lt_of_le (by decide) hb
  have hdiv : n / b ≠ 0 := by
    have h1 : 1 ≤ n / b := (Nat.one_le_div_iff hb0).mpr hn
    omega
  rw [if_neg hdiv]
  rw [toDigitsCore_acc b n (n / b) _]
  congr 1
  have hn0 : 0 < n := lt_of_lt_of_le hb0 hn
  have hlt : n / b < n := Nat.div_lt_self hn0 (lt_of_lt_of_le (by decide) hb)
  exact toDigitsCore_fuel b hb (n / b) n (n / b + 1) hlt (Nat.lt_succ_self _)

theorem toDigits_small (b n : Nat) (hn : n < b) :
    Nat.toDigits b n = [Nat.digitChar n] := by
  unfold Nat.toDigits
  simp only [Nat.toDigitsCore]
  have hdiv : n / b = 0 := Nat.div_eq_of_lt hn
  rw [if_pos hdiv, Nat.mod_eq_of_lt hn]

theorem toDigits_ne_nil (b n : Nat) : Nat.toDigits b n ≠ [] := by
  unfold Nat.toDigits
  simp only [Nat.toDigitsCore]
  by_cases hdiv : n / b = 0
  · rw [if_pos hdiv]; simp
  · rw [if_neg hdiv]
    rw [toDigitsCore_acc b n (n / b) _]
    simp

theorem digitChar_inj_lt10 : ∀ a : Nat, a < 10 → ∀ c : Nat, c < 10 →
    Nat.digitChar a = Nat.digitChar c → a = c := by decide

theorem toDigits10_inj : ∀ n m : Nat, Nat.toDigits 10 n = Nat.toDigits 10 m → n = m := by
  intro n
  induction n using Nat.strong_induction_on with
  | _ n ih =>
    intro m h
    by_cases hn : n < 10 <;> by_cases hm : m < 10
    · rw [toDigits_small 10 n hn, toDigits_small 10 m hm] at h
      injection h with h1 _
      exact digitChar_inj_lt10 n hn m hm h1
    · rw [toDigits_small 10 n hn,
        toDigits_step 10 (by decide) m (Nat.le_of_not_lt hm)] at h
      cases hA : Nat.toDigits 10 (m / 10) with
      | nil => exact absurd hA (toDigits_ne_nil 10 (m / 10))
      | cons a t =>
        rw [hA, List.cons_append] at h
        injection h with _ h2
        exact absurd h2.symm (by simp)
    · rw [toDigits_small 10 m hm,
        toDigits_step 10 (by decide) n (Nat.le_of_not_lt hn)] at h
      cases hA : Nat.toDigits 10 (n / 10) with
      | nil => exact absurd hA (toDigits_ne_nil 10 (n / 10))
      | cons a t =>
        rw [hA, List.cons_append] at h
        injection h with _ h2
        exact absurd h2 (by simp)
    · rw [toDigits_step 10 (by decide) n (Nat.le_of_not_lt hn),
        toDigits_step 10 (by decide) m (Nat.le_of_not_lt hm)] at h
      obtain ⟨h1, h2⟩ := List.append_inj' h rfl
      injection h2 with hc _
      have hmod : n % 10 = m % 10 :=
        digitChar_inj_lt10 _ (Nat.mod_lt n (by decide)) _ (Nat.mod_lt m (by decide)) hc
      have hn0 : 0 < n := lt_of_lt_of_le (by decide) (Nat.le_of_not_lt hn)
      have hdivlt : n / 10 < n := Nat.div_lt_self hn0 (by decide)
      have hdiv : n / 10 = m / 10 := ih (n / 10) hdivlt (m / 10) h1
      omega

theorem reprNat_inj (n m : Nat) (h : Nat.repr n = Nat.repr m) : n = m := by
  unfold Nat.repr at h
  exact toDigits10_inj n m (List.asString_inj.mp h)

theorem mkBookingId_inj (t1 t2 : Nat) (h : mkBookingId t1 = mkBookingId t2) : t1 = t2 := by
  unfold mkBookingId at h
  have hd := congrArg String.data h
  rw [String.data_append, String.data_append] at hd
  have hd' := List.append_cancel_left hd
  exact reprNat_inj t1 t2 (String.ext hd')

theorem cancel_bookings_sublist (bid : String) (st : ServerState) :
    ((cancelBooking bid st).2.bookings).Sublist st.bookings := by
  cases hrem : removeFirst st.bookings bid with
  | none => rw [cancelBooking_none bid st hrem]
  | some p =>
    obtain ⟨b, rest⟩ := p
    rw [cancelBooking_some bid st b rest hrem]
    obtain ⟨pre, post, hl, hr, _, _⟩ := removeFirst_decomp bid b st.bookings rest hrem
    show rest.Sublist st.bookings
    rw [hr, hl]
    exact (List.sublist_cons_self b post).append_left pre

theorem uniqueIds_aux :
    ∀ (ops : List Op) (st : ServerState),
      (createTimes ops).Nodup →
      List.Pairwise (fun b1 b2 : Booking => b1.id ≠ b2.id) st.bookings →
      (∀ b ∈ st.bookings, ∀ t ∈ createTimes ops, b.id ≠ mkBookingId t) →
      List.Pairwise (fun b1 b2 : Booking => b1.id ≠ b2.id) (execOps st ops).bookings := by
  intro ops
  induction ops with
  | nil => intro st _ hpw _; exact hpw
  | cons op ops ih =>
    intro st hnd hpw hdisj
    show List.Pairwise _ (execOps (applyOp st op) ops).bookings
    cases op with
    | create n sid seats now =>
      have hct : createTimes (Op.create n sid seats now :: ops) = now :: createTimes ops := rfl
      rw [hct] at hnd hdisj
      have hnotin : now ∉ createTimes ops := (List.nodup_cons.mp hnd).1
      have hnd' : (createTimes ops).Nodup := (List.nodup_cons.mp hnd).2
      have happly : applyOp st (Op.create n sid seats now) =
        (createBooking n sid seats now st).2 := rfl
      rcases create_master n sid seats now st with
        ⟨h2, _⟩ | ⟨S, m, s, bk, hS, _, _, _, _, hbk, heq⟩
      · refine ih _ hnd' ?_ ?_
        · rw [happly, h2]; exact hpw
        · intro b hb t ht
          rw [happly, h2] at hb
          exact hdisj b hb t (List.mem_cons_of_mem now ht)
      · refine ih _ hnd' ?_ ?_
        · rw [happly, heq]
          show List.Pairwise _ (st.bookings ++ [bk])
          rw [List.pairwise_append]
          refine ⟨hpw, List.pairwise_singleton .., ?_⟩
          intro a ha b' hb'
          have hb'' := List.mem_singleton.mp hb'
          subst hb''
          rw [hbk]
          exact hdisj a ha now (List.mem_cons_self now (createTimes ops))
        · intro b hb t ht
          rw [happly, heq] at hb
          have hb' : b ∈ st.bookings ++ [bk] := hb
          rcases List.mem_append.mp hb' with hmem | hmem
          · exact hdisj b hmem t (List.mem_cons_of_mem now ht)
          · have hmem' := List.mem_singleton.mp hmem
            subst hmem'
            rw [hbk]
            intro hcontra
            have hnt : now = t := mkBookingId_inj now t hcontra
            exact hnotin (hnt ▸ ht)
    | cancel bid =>
      have hct : createTimes (Op.cancel bid :: ops) = createTimes ops := rfl
      rw [hct] at hnd hdisj
      refine ih _ hnd ?_ ?_
      · exact hpw.sublist (cancel_bookings_sublist bid st)
      · intro b hb t ht
        exact hdisj b ((cancel_bookings_sublist bid st).subset hb) t ht

/-- C9 (amended): provided no two CreateBooking requests of the
sequence carry the same `Date.now()` millisecond value, all bookings in
the resulting ledger have pairwise distinct ids.  (Without that proviso
the claim fails: two creates in the same millisecond mint the same
`'b' + Date.now()` id — see the counterexample.) -/
theorem C9_unique_ids (ops : List Op) (h : (createTimes ops).Nodup) :
    List.Pairwise (fun b1 b2 : Booking => b1.id ≠ b2.id)
      (execOps seedState ops).bookings :=
  uniqueIds_aux ops seedState h List.Pairwise.nil
    (fun b hb _ _ => absurd hb (List.not_mem_nil b))

/-- C9 counterexample: two CreateBooking requests executed in the same
millisecond (`Date.now() = 7`) produce two distinct ledger entries
(Alice's and Bob's) carrying the *same* booking id `b7`. -/
theorem C9_cex :
    (execOps seedState [Op.create "Alice" "s1" (some ["A1"]) 7,
      Op.create "Bob" "s1" (some ["A2"]) 7]).bookings.map Booking.id = ["b7", "b7"] ∧
    (execOps seedState [Op.create "Alice" "s1" (some ["A1"]) 7,
      Op.create "Bob" "s1" (some ["A2"]) 7]).bookings.map Booking.customerName =
      ["Alice", "Bob"] := by
  decide

theorem C9_witness :
    List.Pairwise (fun b1 b2 : Booking => b1.id ≠ b2.id)
      (execOps seedState [Op.create "Alice" "s1" (some ["A1"]) 0,
        Op.create "Bob" "s1" (some ["A2"]) 1]).bookings :=
  C9_unique_ids
    [Op.create "Alice" "s1" (some ["A1"]) 0, Op.create "Bob" "s1" (some ["A2"]) 1]
    (by decide)

theorem C1_witness :
    List.Pairwise
      (fun b1 b2 => b1.showtimeId = b2.showtimeId → ∀ x ∈ b1.seats, x ∉ b2.seats)
      (execOps seedState [Op.create "Alice" "s1" (some ["A1"]) 0,
        Op.create "Bob" "s1" (some ["A2"]) 1]).bookings :=
  C1_no_double_booking
    [Op.create "Alice" "s1" (some ["A1"]) 0, Op.create "Bob" "s1" (some ["A2"]) 1]

end MovieSeat
